import Mathlib

set_option maxRecDepth 100000

/-!
Shallow embedding of the alignment-and-aggregation layer of this repository:

* `src/neurokit2/ecg/ecg_process.py` — the pipeline orchestrator `ecg_process`,
  which calls external collaborators (sanitizer, cleaner, peak detector, rate
  estimator, quality scorer, delineator, phase assigner) and merges their
  outputs column-wise with `pandas.concat(axis=1)`.
* `src/neurokit2/ppg/ppg_intervalrelated.py` — the interval aggregator
  `ppg_intervalrelated` and its helpers `_ppg_intervalrelated_formatinput`
  and `_ppg_intervalrelated_hrv`, including the Python mutable-default
  accumulators (`output={}`) which are modelled as explicit module state.

Python floats are modelled as rationals (`ℚ`); a pandas `NaN` cell produced by
index alignment is modelled as `none : Option ℚ`.  Python exceptions are
modelled with `Except PyError`.
-/

namespace NeuroKit

/-- Python exceptions that the modelled code can raise: `ValueError` (raised
explicitly by the repository code and by `pandas.DataFrame` construction from
unequal-length arrays), `KeyError` (column lookup by a name that is absent),
`IndexError` (`.iloc[0]` on an empty column) and `TypeError`
(`np.mean` over non-numeric data). -/
inductive PyError where
  | valueError (msg : String)
  | keyError (key : String)
  | indexError (msg : String)
  | typeError (msg : String)
deriving DecidableEq, Repr

instance {ε α : Type _} [DecidableEq ε] [DecidableEq α] :
    DecidableEq (Except ε α) := fun a b =>
  match a, b with
  | .ok x, .ok y =>
    if h : x = y then .isTrue (by rw [h]) else .isFalse (by simp [h])
  | .error x, .error y =>
    if h : x = y then .isTrue (by rw [h]) else .isFalse (by simp [h])
  | .ok _, .error _ => .isFalse (by simp)
  | .error _, .ok _ => .isFalse (by simp)

/-! ## ECG side: `src/neurokit2/ecg/ecg_process.py` -/

/-- A pandas DataFrame as used on the ECG side: an ordered list of
(column name, column) pairs.  pandas permits duplicate column labels, so this
is a plain list, not a finite map.  Cells are `Option ℚ`; `none` models `NaN`
introduced by index alignment. -/
structure EFrame where
  cols : List (String × List (Option ℚ))
deriving DecidableEq, Repr

/-- Row count of a frame: the length of its (Range-)index, i.e. the maximum
column length (0 for a frame with no columns). -/
def EFrame.nrows (df : EFrame) : ℕ :=
  (df.cols.map (fun c => c.2.length)).foldr max 0

/-- Reindexing a column to `n` rows: pandas `concat(axis=1)` outer-joins the
row indexes and fills missing positions with `NaN` (`none`). -/
def padTo (n : ℕ) (c : List (Option ℚ)) : List (Option ℚ) :=
  c ++ List.replicate (n - c.length) none

/-- `pandas.concat(dfs, axis=1)` with default `RangeIndex`es: the result has
`max` row count, every column of every input appears, in order, padded with
`NaN` to the common length.  Duplicate column labels are kept. -/
def pdConcatCols (dfs : List EFrame) : EFrame :=
  let n := (dfs.map EFrame.nrows).foldr max 0
  ⟨(dfs.map (fun d => d.cols.map (fun c => (c.1, padTo n c.2)))).flatten⟩

/-- `pandas.DataFrame({...})` built from a dict of arrays: raises
`ValueError` when the arrays do not all have the same length. -/
def pd_DataFrame (entries : List (String × List (Option ℚ))) :
    Except PyError EFrame :=
  match entries with
  | [] => .ok ⟨[]⟩
  | e :: es =>
    if es.all (fun x => x.2.length == e.2.length) then .ok ⟨e :: es⟩
    else .error (.valueError "All arrays must be of the same length")

/-- The `info` dict returned by `ecg_process`: the peak detector dict
(`{"ECG_R_Peaks": indices}`) into which `"sampling_rate"` is inserted. -/
structure InfoRecord where
  rpeaks : List ℕ
  sampling_rate : ℤ
deriving DecidableEq, Repr

/-- The external collaborators imported by `ecg_process.py`
(`signal_sanitize`, `ecg_clean`, `ecg_peaks`, `signal_rate`, `ecg_quality`,
`ecg_delineate`, `ecg_phase`).  They are out of scope (interfaces only), so
they are parameters of the model.  Signals are `List ℚ`; the peak detector
and delineator also return metadata (R-peak indices, boundary indices). -/
structure EcgDeps where
  signal_sanitize : List ℚ → List ℚ
  ecg_clean : List ℚ → ℤ → String → List ℚ
  ecg_peaks : List ℚ → ℤ → String → EFrame × List ℕ
  signal_rate : List ℕ → ℤ → ℕ → List ℚ
  ecg_quality : List ℚ → List ℕ → ℤ → List ℚ
  ecg_delineate : List ℚ → List ℕ → ℤ → EFrame × List (String × List ℕ)
  ecg_phase : List ℚ → List ℕ → List (String × List ℕ) → EFrame

/-- `ecg_process(ecg_signal, sampling_rate, method)` from
`src/neurokit2/ecg/ecg_process.py`, lines 88–118: sanitize, clean, detect
R-peaks, interpolate rate to the cleaned length, score quality, build the
primary frame `pd.DataFrame({Raw, Clean, Rate, Quality})`, delineate, assign
phase, and merge everything with `pd.concat(..., axis=1)`.  The only error
source is the pandas frame construction; the function itself performs no
validation of `sampling_rate` and no length check on collaborator output. -/
def ecg_process (D : EcgDeps) (ecg_signal : List ℚ) (sampling_rate : ℤ)
    (method : String) : Except PyError (EFrame × InfoRecord) :=
  let s := D.signal_sanitize ecg_signal
  let ecg_cleaned := D.ecg_clean s sampling_rate method
  let pk := D.ecg_peaks ecg_cleaned sampling_rate method
  let rate := D.signal_rate pk.2 sampling_rate ecg_cleaned.length
  let quality := D.ecg_quality ecg_cleaned pk.2 sampling_rate
  match pd_DataFrame [("ECG_Raw", s.map some), ("ECG_Clean", ecg_cleaned.map some),
      ("ECG_Rate", rate.map some), ("ECG_Quality", quality.map some)] with
  | .error e => .error e
  | .ok signals =>
    let dl := D.ecg_delineate ecg_cleaned pk.2 sampling_rate
    let cardiac_phase := D.ecg_phase ecg_cleaned pk.2 dl.2
    .ok (pdConcatCols [signals, pk.1, dl.1, cardiac_phase],
         ⟨pk.2, sampling_rate⟩)

/-! ## PPG side: `src/neurokit2/ppg/ppg_intervalrelated.py` -/

/-- Python substring containment `pat in s` (`str.__contains__`). -/
def strContains (s pat : String) : Bool :=
  (List.range (s.data.length + 1)).any
    (fun i => (s.data.drop i).take pat.data.length == pat.data)

/-- A cell of a PPG DataFrame: pandas columns are heterogeneous, and the
epoch frames carry a string-valued `"Label"` column next to numeric ones. -/
inductive PVal where
  | num (q : ℚ)
  | str (s : String)
deriving DecidableEq, Repr

/-- Python truthiness of a cell, as used by `np.where(values)`:
a number is truthy iff nonzero, a string iff nonempty. -/
def truthy : PVal → Bool
  | .num q => decide (q ≠ 0)
  | .str s => decide (s ≠ "")

/-- A pandas DataFrame as used on the PPG side (aggregation input). -/
structure PFrame where
  cols : List (String × List PVal)
deriving DecidableEq, Repr

/-- `data.columns` — the list of column names. -/
def PFrame.columns (df : PFrame) : List String :=
  df.cols.map (fun c => c.1)

/-- `data[name]` — exact-name column lookup; raises `KeyError` when no column
carries that exact name. -/
def PFrame.getCol (df : PFrame) (name : String) : Except PyError (List PVal) :=
  match df.cols.find? (fun c => c.1 = name) with
  | some c => .ok c.2
  | none => .error (.keyError name)

/-- A value stored in an output dict: the scalar `PPG_Rate_Mean`, the float
arrays `results[column].values.astype("float")` copied from the HRV result
frame, or the copied `"Label"` field. -/
inductive OVal where
  | num (q : ℚ)
  | arr (qs : List ℚ)
  | str (s : String)
deriving DecidableEq, Repr

/-- A Python dict with string keys, in insertion order. -/
abbrev Assoc := List (String × OVal)

/-- `d[k] = v` on a Python dict: overwrite in place when the key exists
(insertion order kept), append otherwise. -/
def dictInsert (d : Assoc) (k : String) (v : OVal) : Assoc :=
  if d.any (fun e => e.1 = k) then
    d.map (fun e => if e.1 = k then (k, v) else e)
  else d ++ [(k, v)]

/-- `d.update(src)`: insert every entry of `src` into `d`, in order. -/
def dictUpdate (d : Assoc) (src : Assoc) : Assoc :=
  src.foldl (fun a e => dictInsert a e.1 e.2) d

/-- `d.get(k)` — lookup by key. -/
def dictLookup (d : Assoc) (k : String) : Option OVal :=
  (d.find? (fun e => e.1 = k)).map (fun e => e.2)

/-- Numeric view of a cell. -/
def asNum : PVal → Option ℚ
  | .num q => some q
  | .str _ => none

/-- `np.mean(values)`: arithmetic mean of a numeric column; non-numeric data
raises.  (An empty float column yields `NaN` in numpy; the claims never
exercise that case and the model returns `0` there, as `ℚ` division by zero.) -/
def npMean (xs : List PVal) : Except PyError ℚ :=
  match xs.mapM asNum with
  | some qs => .ok (qs.sum / (qs.length : ℚ))
  | none => .error (.typeError "unsupported operand type for mean")

/-- Helper for `np.where`: positions (offset by `i`) of truthy cells. -/
def npWhereAux (i : ℕ) : List PVal → List ℕ
  | [] => []
  | x :: xs =>
    if truthy x then i :: npWhereAux (i + 1) xs else npWhereAux (i + 1) xs

/-- `np.where(values)[0]`: the increasing list of indices of truthy cells. -/
def npWhere (xs : List PVal) : List ℕ := npWhereAux 0 xs

/-- Copying a frame cell (the `"Label"` field) into an output dict. -/
def pvalToOVal : PVal → OVal
  | .num q => .num q
  | .str s => .str s

/-- The mutable default arguments `output={}` of
`_ppg_intervalrelated_formatinput` and `_ppg_intervalrelated_hrv`: Python
evaluates each default dict once at function definition time and reuses the
same object across every call that omits `output`, so the pair is hidden
module state threaded through the model. -/
structure ModState where
  fmtDefault : Assoc
  hrvDefault : Assoc
deriving DecidableEq, Repr

/-- The module state right after import: both default dicts empty. -/
def initState : ModState := ⟨[], []⟩

/-- The `ValueError` message for a missing/ambiguous rate column (source
lines 66–70 and 105–109; Python concatenates the adjacent string literals
without separators). -/
def ppgRateMsg : String :=
  "NeuroKit error: ppg_intervalrelated(): Wrong input,we couldn\x27t extract heart rate. Please make sureyour DataFrame contains a `PPG_Rate` column."

/-- The `ValueError` message for a missing events column (source
lines 121–125). -/
def ppgPeaksMsg : String :=
  "NeuroKit error: ppg_intervalrelated(): Wrong input,we couldn\x27t extract peaks. Please make sureyour DataFrame contains a `PPG_Peaks` column."

/-- `_ppg_intervalrelated_formatinput(data, output={})` (source lines
100–113): when `output` is omitted the shared default dict is used and
mutated in place.  Requires at least one column whose name contains
`"PPG_Rate"`, then reads the exact column `data["PPG_Rate"]` and writes its
mean under `"PPG_Rate_Mean"`. -/
def ppg_intervalrelated_formatinput (data : PFrame) (output : Option Assoc)
    (st : ModState) : Except PyError (Assoc × ModState) :=
  let out := output.getD st.fmtDefault
  if ((data.columns.filter (fun i => strContains i "PPG_Rate")).length = 0) then
    .error (.valueError ppgRateMsg)
  else
    match data.getCol "PPG_Rate" with
    | .error e => .error e
    | .ok signal =>
      match npMean signal with
      | .error e => .error e
      | .ok m =>
        let outNew := dictInsert out "PPG_Rate_Mean" (.num m)
        .ok (outNew,
          if output.isNone then { st with fmtDefault := outNew } else st)

/-- The external HRV engine `hrv(peaks, sampling_rate)` (imported from
`..hrv`, out of scope): from the sparse peak indices and the sampling rate it
returns a one-row frame of named metrics, modelled as the list of
(column name, float values) pairs. -/
abbrev HrvEngine := List ℕ → ℤ → List (String × List ℚ)

/-- `_ppg_intervalrelated_hrv(data, sampling_rate, output={})` (source lines
116–135): requires a column whose name contains `"PPG_Peaks"`, converts the
exact column `data["PPG_Peaks"]` from dense-mask to sparse-index form with
`np.where(...)[0]`, delegates to `hrv`, and copies every result column into
`output` (the shared default dict when `output` is omitted). -/
def ppg_intervalrelated_hrv (hrvEngine : HrvEngine) (data : PFrame)
    (sampling_rate : ℤ) (output : Option Assoc) (st : ModState) :
    Except PyError (Assoc × ModState) :=
  let out := output.getD st.hrvDefault
  if ((data.columns.filter (fun i => strContains i "PPG_Peaks")).length = 0) then
    .error (.valueError ppgPeaksMsg)
  else
    match data.getCol "PPG_Peaks" with
    | .error e => .error e
    | .ok mask =>
      let peaks := npWhere mask
      let results := hrvEngine peaks sampling_rate
      let outNew := results.foldl (fun o r => dictInsert o r.1 (.arr r.2)) out
      .ok (outNew,
        if output.isNone then { st with hrvDefault := outNew } else st)

/-- The aggregator input: `isinstance(data, pd.DataFrame)` versus
`isinstance(data, dict)` (a labelled epoch collection, in insertion order). -/
inductive PpgInput where
  | df (t : PFrame)
  | dict (m : List (String × PFrame))

/-- The aggregator output: the single summary row
(`pd.DataFrame.from_dict(intervals, orient="index").T`) or one row per label
(`pd.DataFrame.from_dict(intervals, orient="index")`). -/
inductive PpgOut where
  | single (row : Assoc)
  | byLabel (rows : List (String × Assoc))
deriving DecidableEq, Repr

/-- The dict-mode loop body of `ppg_intervalrelated` (source lines 73–88):
for each label in order, start a fresh row, copy
`data[index]["Label"].iloc[0]`, then run the two helpers with the row passed
explicitly as `output`.  Any exception aborts the whole batch. -/
def ppgDictGo (hrvEngine : HrvEngine) (sampling_rate : ℤ) :
    List (String × PFrame) → ModState →
    Except PyError (List (String × Assoc) × ModState)
  | [], st => .ok ([], st)
  | (lab, t) :: rest, st =>
    match t.getCol "Label" with
    | .error e => .error e
    | .ok labcol =>
      match labcol.head? with
      | none => .error (.indexError "single positional indexer is out-of-bounds")
      | some lv =>
        let row0 : Assoc := dictInsert [] "Label" (pvalToOVal lv)
        match ppg_intervalrelated_formatinput t (some row0) st with
        | .error e => .error e
        | .ok (row1, st1) =>
          match ppg_intervalrelated_hrv hrvEngine t sampling_rate (some row1) st1 with
          | .error e => .error e
          | .ok (row2, st2) =>
            match ppgDictGo hrvEngine sampling_rate rest st2 with
            | .error e => .error e
            | .ok (rows, st3) => .ok ((lab, row2) :: rows, st3)

/-- `ppg_intervalrelated(data, sampling_rate=1000)` (source lines 8–92).
Single-frame mode demands exactly one column whose name contains
`"PPG_Rate"`, then runs the two helpers *without* an `output` argument (so
they use and mutate their shared default dicts) and copies both results into
a fresh `intervals` dict.  Dict mode loops over the labels. -/
def ppg_intervalrelated (hrvEngine : HrvEngine) (data : PpgInput)
    (sampling_rate : ℤ) (st : ModState) : Except PyError (PpgOut × ModState) :=
  match data with
  | .df t =>
    if ((t.columns.filter (fun col => strContains col "PPG_Rate")).length = 1) then
      match ppg_intervalrelated_formatinput t none st with
      | .error e => .error e
      | .ok (r1, st1) =>
        match ppg_intervalrelated_hrv hrvEngine t sampling_rate none st1 with
        | .error e => .error e
        | .ok (r2, st2) =>
          .ok (.single (dictUpdate (dictUpdate [] r1) r2), st2)
    else .error (.valueError ppgRateMsg)
  | .dict m =>
    match ppgDictGo hrvEngine sampling_rate m st with
    | .error e => .error e
    | .ok (rows, st1) => .ok (.byLabel rows, st1)

/-! ## Concrete collaborator instances and inputs used by the witnesses and
counterexamples -/

/-- A set of well-behaved collaborators: every stage honours its length
contract (output lengths match the input/desired length). -/
def benignDeps : EcgDeps where
  signal_sanitize := fun s => s
  ecg_clean := fun s _ _ => s
  ecg_peaks := fun s _ _ =>
    (⟨[("ECG_R_Peaks", s.map (fun _ => some 0))]⟩, [1])
  signal_rate := fun _ _ n => List.replicate n 70
  ecg_quality := fun s _ _ => List.replicate s.length 1
  ecg_delineate := fun s _ _ =>
    (⟨[("ECG_P_Peaks", List.replicate s.length (some 0))]⟩, [("ECG_P_Peaks", [1])])
  ecg_phase := fun s _ _ =>
    ⟨[("ECG_Phase_Atrial", List.replicate s.length (some 0))]⟩

/-- Like `benignDeps`, except that the peak detector returns a mask column
one sample shorter than its input — the synthetic misaligned collaborator of
the alignment claim. -/
def misalignedDeps : EcgDeps :=
  { benignDeps with
    ecg_peaks := fun s _ _ =>
      (⟨[("ECG_R_Peaks", List.replicate (s.length - 1) (some 0))]⟩, [1]) }

/-- Like `benignDeps`, except that the delineator emits a column named
`"ECG_Raw"`, colliding with the raw column of the primary frame. -/
def collidingDeps : EcgDeps :=
  { benignDeps with
    ecg_delineate := fun s _ _ =>
      (⟨[("ECG_Raw", List.replicate s.length (some 5))]⟩, [("ECG_P_Peaks", [1])]) }

/-- The table produced by `ecg_process` with `collidingDeps` on `[1, 2, 3]`:
it carries *two* columns labelled `"ECG_Raw"` — one from the primary stage
and one from the delineator. -/
def tblC4 : EFrame :=
  ⟨[("ECG_Raw", [some 1, some 2, some 3]),
    ("ECG_Clean", [some 1, some 2, some 3]),
    ("ECG_Rate", [some 70, some 70, some 70]),
    ("ECG_Quality", [some 1, some 1, some 1]),
    ("ECG_R_Peaks", [some 0, some 0, some 0]),
    ("ECG_Raw", [some 5, some 5, some 5]),
    ("ECG_Phase_Atrial", [some 0, some 0, some 0])]⟩

/-- An HRV engine that never reports any metric. -/
def emptyHrv : HrvEngine := fun _ _ => []

/-- An HRV engine whose reported column set depends on its input: peak
list `[0]` yields the metric `HRV_X`, anything else yields `HRV_Y`.  (The
contract of the `hrv` collaborator only promises *some* row of named metrics, so
the emitted column set may vary with the input.) -/
def shiftHrv : HrvEngine := fun peaks _ =>
  if peaks = [0] then [("HRV_X", [1])] else [("HRV_Y", [2])]

/-- An HRV engine reporting one fixed metric. -/
def oneHrv : HrvEngine := fun _ _ => [("HRV_MeanNN", [42])]

/-- A well-formed processed-PPG frame: one sample, rate 60, a peak at 0. -/
def dfA : PFrame := ⟨[("PPG_Rate", [.num 60]), ("PPG_Peaks", [.num 1])]⟩

/-- A second well-formed frame with a different peak pattern (peak at 1). -/
def dfB : PFrame := ⟨[("PPG_Rate", [.num 50]), ("PPG_Peaks", [.num 0, .num 1])]⟩

/-- A frame with no column whose name contains `"PPG_Rate"`. -/
def dfNoRate : PFrame := ⟨[("PPG_Clean", [.num 1]), ("PPG_Peaks", [.num 1])]⟩

/-- A frame whose only rate-matching column is `"PPG_Rate_Smoothed"`:
the substring check accepts it but the exact lookup `data["PPG_Rate"]`
cannot find it. -/
def dfRateSmoothed : PFrame :=
  ⟨[("PPG_Rate_Smoothed", [.num 60]), ("PPG_Peaks", [.num 1])]⟩

/-- A frame whose only events-matching column is `"PPG_Peaks_Fixed"`:
the substring check accepts it but the exact lookup `data["PPG_Peaks"]`
cannot find it. -/
def dfPeaksFixed : PFrame :=
  ⟨[("PPG_Rate", [.num 60]), ("PPG_Peaks_Fixed", [.num 1])]⟩

/-- The mean-rate example table of the spec: rate column `[60, 60, 60, 80, 80]`. -/
def dfMean : PFrame :=
  ⟨[("PPG_Rate", [.num 60, .num 60, .num 60, .num 80, .num 80]),
    ("PPG_Peaks", [.num 1, .num 0, .num 0, .num 1, .num 0])]⟩

/-- A concrete binary events mask: peaks at positions 1 and 2. -/
def maskC9 : List PVal := [.num 0, .num 1, .num 1, .num 0]

/-- A frame carrying `maskC9` as its `"PPG_Peaks"` column. -/
def dfC9 : PFrame := ⟨[("PPG_Peaks", maskC9)]⟩

/-- An epoch frame (label `"A"`) that is malformed: it has a rate column but
no column whose name contains `"PPG_Peaks"`. -/
def epochA : PFrame := ⟨[("Label", [.str "A"]), ("PPG_Rate", [.num 60])]⟩

/-- A well-formed epoch frame (label `"B"`). -/
def epochB : PFrame :=
  ⟨[("Label", [.str "B"]), ("PPG_Rate", [.num 70]), ("PPG_Peaks", [.num 1])]⟩

/-! ## Helper lemmas about the ECG merge -/

theorem padTo_length {n : ℕ} {c : List (Option ℚ)} (h : c.length ≤ n) :
    (padTo n c).length = n := by
  simp only [padTo, List.length_append, List.length_replicate]
  omega

theorem foldr_max_le {l : List ℕ} {n : ℕ} (h : ∀ x ∈ l, x ≤ n) :
    l.foldr max 0 ≤ n := by
  induction l with
  | nil => simp
  | cons a t ih =>
    simp only [List.foldr_cons]
    have ha := h a (List.mem_cons_self a t)
    have ht := ih (fun x hx => h x (List.mem_cons_of_mem a hx))
    omega

theorem map_fst_padded (n : ℕ) (l : List (String × List (Option ℚ))) :
    (l.map (fun c0 => (c0.1, padTo n c0.2))).map (fun col => col.1)
      = l.map (fun col => col.1) := by
  induction l with
  | nil => rfl
  | cons a t ih => simp [ih]

theorem nrows_le {df : EFrame} {n : ℕ}
    (h : ∀ col ∈ df.cols, col.2.length ≤ n) : df.nrows ≤ n := by
  refine foldr_max_le (fun x hx => ?_)
  obtain ⟨col, hcol, rfl⟩ := List.mem_map.mp hx
  exact h col hcol

/-- Evaluation of `ecg_process` under the length contracts of the
collaborators at the actual call sites: the primary-frame construction succeeds and the final
`pd.concat` pads every stage column to the sanitized length `s.length`.
The `h*` hypotheses name the intermediate values; `lc`, `lr`, `lq` are the
cleaner/rate/quality length contracts; `lp`, `ld`, `lph2` bound the
peak/delineation/phase column lengths. -/
theorem ecg_process_concat (D : EcgDeps) (raw : List ℚ) (sr : ℤ)
    (method : String) (s c rate quality : List ℚ)
    (pframe dframe phframe : EFrame) (rpk : List ℕ)
    (dinfo : List (String × List ℕ))
    (hs : s = D.signal_sanitize raw)
    (hc : c = D.ecg_clean s sr method)
    (hpk : D.ecg_peaks c sr method = (pframe, rpk))
    (hrt : rate = D.signal_rate rpk sr c.length)
    (hq : quality = D.ecg_quality c rpk sr)
    (hdl : D.ecg_delineate c rpk sr = (dframe, dinfo))
    (hph : phframe = D.ecg_phase c rpk dinfo)
    (lc : c.length = s.length) (lr : rate.length = c.length)
    (lq : quality.length = s.length)
    (lp : ∀ col ∈ pframe.cols, col.2.length ≤ s.length)
    (ld : ∀ col ∈ dframe.cols, col.2.length ≤ s.length)
    (lph2 : ∀ col ∈ phframe.cols, col.2.length ≤ s.length) :
    ecg_process D raw sr method =
      .ok (⟨([("ECG_Raw", s.map some), ("ECG_Clean", c.map some),
              ("ECG_Rate", rate.map some), ("ECG_Quality", quality.map some)]
              : List (String × List (Option ℚ))).map
                (fun c0 => (c0.1, padTo s.length c0.2))
            ++ pframe.cols.map (fun c0 => (c0.1, padTo s.length c0.2))
            ++ dframe.cols.map (fun c0 => (c0.1, padTo s.length c0.2))
            ++ phframe.cols.map (fun c0 => (c0.1, padTo s.length c0.2))⟩,
          ⟨rpk, sr⟩) := by
  have hn1 : EFrame.nrows
      ⟨[("ECG_Raw", s.map some), ("ECG_Clean", c.map some),
        ("ECG_Rate", rate.map some), ("ECG_Quality", quality.map some)]⟩
      = s.length := by
    simp only [EFrame.nrows, List.map_cons, List.map_nil, List.length_map,
      List.foldr_cons, List.foldr_nil, lc, lr, lq]
    omega
  have hnp : pframe.nrows ≤ s.length := nrows_le lp
  have hnd : dframe.nrows ≤ s.length := nrows_le ld
  have hnph : phframe.nrows ≤ s.length := nrows_le lph2
  simp only [ecg_process, ← hs, ← hc, hpk, ← hrt, ← hq, hdl, ← hph]
  simp only [pd_DataFrame, List.all_cons, List.all_nil, List.length_map,
    lc, lr, lq, beq_self_eq_true, Bool.and_self, if_true]
  simp only [pdConcatCols, List.map_cons, List.map_nil, List.foldr_cons,
    List.foldr_nil, hn1, List.flatten]
  have hmax : max s.length (max pframe.nrows (max dframe.nrows
      (max phframe.nrows 0))) = s.length := by omega
  rw [hmax]
  simp [List.append_assoc]

/-! ## Claim C1 -/

/-- Claim C1: for every valid input signal accepted by the orchestrator
`ecg_process`, assuming each collaborator honours its length contract (at the
call sites of the orchestrator), every column of the returned signals frame has
length exactly `N = s.length`, the length of the sanitized input signal; in
particular the final column-wise merge of the primary table with the peaks,
delineation and phase tables does not alter the row count. -/
theorem C1_length_invariance (D : EcgDeps) (raw : List ℚ) (sr : ℤ)
    (method : String) (s c rate quality : List ℚ)
    (pframe dframe phframe : EFrame) (rpk : List ℕ)
    (dinfo : List (String × List ℕ))
    (hs : s = D.signal_sanitize raw)
    (hc : c = D.ecg_clean s sr method)
    (hpk : D.ecg_peaks c sr method = (pframe, rpk))
    (hrt : rate = D.signal_rate rpk sr c.length)
    (hq : quality = D.ecg_quality c rpk sr)
    (hdl : D.ecg_delineate c rpk sr = (dframe, dinfo))
    (hph : phframe = D.ecg_phase c rpk dinfo)
    (lc : c.length = s.length) (lr : rate.length = c.length)
    (lq : quality.length = s.length)
    (lp : ∀ col ∈ pframe.cols, col.2.length = s.length)
    (ld : ∀ col ∈ dframe.cols, col.2.length = s.length)
    (lph2 : ∀ col ∈ phframe.cols, col.2.length = s.length) :
    ∃ tbl info, ecg_process D raw sr method = .ok (tbl, info) ∧
      ∀ col ∈ tbl.cols, col.2.length = s.length := by
  refine ⟨_, _, ecg_process_concat D raw sr method s c rate quality pframe
    dframe phframe rpk dinfo hs hc hpk hrt hq hdl hph lc lr lq
    (fun col h => (lp col h).le) (fun col h => (ld col h).le)
    (fun col h => (lph2 col h).le), ?_⟩
  intro col hcol
  simp only [List.mem_append, List.mem_map] at hcol
  rcases hcol with ((⟨c0, hc0, rfl⟩ | ⟨c0, hc0, rfl⟩) | ⟨c0, hc0, rfl⟩) |
    ⟨c0, hc0, rfl⟩
  · simp only [List.mem_cons, List.not_mem_nil, or_false] at hc0
    rcases hc0 with rfl | rfl | rfl | rfl <;>
      exact padTo_length (by simp [List.length_map, lc, lr, lq])
  · exact padTo_length (lp c0 hc0).le
  · exact padTo_length (ld c0 hc0).le
  · exact padTo_length (lph2 c0 hc0).le

/-- Witness for C1: the benign collaborators on the 3-sample input
`[1, 2, 3]` satisfy every length contract, and every column of the
orchestrator output has length 3. -/
theorem C1_length_invariance_witness :
    ((([1, 2, 3] : List ℚ) = benignDeps.signal_sanitize [1, 2, 3])
      ∧ (([1, 2, 3] : List ℚ) = benignDeps.ecg_clean [1, 2, 3] 1000 "neurokit")
      ∧ (benignDeps.ecg_peaks [1, 2, 3] 1000 "neurokit"
          = (⟨[("ECG_R_Peaks", [some 0, some 0, some 0])]⟩, [1]))
      ∧ (List.replicate 3 (70 : ℚ)
          = benignDeps.signal_rate [1] 1000 ([1, 2, 3] : List ℚ).length)
      ∧ (List.replicate 3 (1 : ℚ) = benignDeps.ecg_quality [1, 2, 3] [1] 1000)
      ∧ (benignDeps.ecg_delineate [1, 2, 3] [1] 1000
          = (⟨[("ECG_P_Peaks", List.replicate 3 (some 0))]⟩,
             [("ECG_P_Peaks", [1])]))
      ∧ ((⟨[("ECG_Phase_Atrial", List.replicate 3 (some 0))]⟩ : EFrame)
          = benignDeps.ecg_phase [1, 2, 3] [1] [("ECG_P_Peaks", [1])])
      ∧ (([1, 2, 3] : List ℚ).length = ([1, 2, 3] : List ℚ).length)
      ∧ ((List.replicate 3 (70 : ℚ)).length = ([1, 2, 3] : List ℚ).length)
      ∧ ((List.replicate 3 (1 : ℚ)).length = ([1, 2, 3] : List ℚ).length)
      ∧ (∀ col ∈ (⟨[("ECG_R_Peaks", [some 0, some 0, some 0])]⟩ : EFrame).cols,
            col.2.length = ([1, 2, 3] : List ℚ).length)
      ∧ (∀ col ∈ (⟨[("ECG_P_Peaks", List.replicate 3 (some 0))]⟩ : EFrame).cols,
            col.2.length = ([1, 2, 3] : List ℚ).length)
      ∧ (∀ col ∈ (⟨[("ECG_Phase_Atrial", List.replicate 3 (some 0))]⟩
            : EFrame).cols, col.2.length = ([1, 2, 3] : List ℚ).length))
    ∧ ∃ tbl info,
        ecg_process benignDeps [1, 2, 3] 1000 "neurokit" = .ok (tbl, info) ∧
        ∀ col ∈ tbl.cols, col.2.length = ([1, 2, 3] : List ℚ).length := by
  refine ⟨by decide, ?_⟩
  exact C1_length_invariance benignDeps [1, 2, 3] 1000 "neurokit" [1, 2, 3]
    [1, 2, 3] (List.replicate 3 70) (List.replicate 3 1)
    ⟨[("ECG_R_Peaks", [some 0, some 0, some 0])]⟩
    ⟨[("ECG_P_Peaks", List.replicate 3 (some 0))]⟩
    ⟨[("ECG_Phase_Atrial", List.replicate 3 (some 0))]⟩
    [1] [("ECG_P_Peaks", [1])] (by decide) (by decide) (by decide) (by decide)
    (by decide) (by decide) (by decide) (by decide) (by decide) (by decide)
    (by decide) (by decide) (by decide)

/-! ## Claim C2 -/

/-- Counterexample to claim C2 as stated: with a synthetic peak-detection
collaborator returning a mask column of length `N - 1 = 2` against the
3-sample input `[1, 2, 3]`, `ecg_process` raises no error whatsoever — the
call succeeds and the merge silently pads the short `ECG_R_Peaks` column
with a missing value (`none`, i.e. `NaN`).  No `AlignmentError` naming the
offending stage and the expected vs actual lengths is raised. -/
theorem C2_counterexample :
    ecg_process misalignedDeps [1, 2, 3] 1000 "neurokit" =
      .ok (⟨[("ECG_Raw", [some 1, some 2, some 3]),
             ("ECG_Clean", [some 1, some 2, some 3]),
             ("ECG_Rate", [some 70, some 70, some 70]),
             ("ECG_Quality", [some 1, some 1, some 1]),
             ("ECG_R_Peaks", [some 0, some 0, none]),
             ("ECG_P_Peaks", [some 0, some 0, some 0]),
             ("ECG_Phase_Atrial", [some 0, some 0, some 0])]⟩,
           ⟨[1], 1000⟩) := by decide

/-- Amended claim C2: the orchestrator performs no length check at all.  If a
collaborator stage returns a column whose length is at most `N` (for example
`N - 1`), `ecg_process` raises no error: the mismatched column is silently
merged, padded by pandas index alignment with missing values (`none`/`NaN`)
up to the row count `N`, and the output names neither a stage nor the
expected vs actual lengths. -/
theorem C2_amended_silent_padding (D : EcgDeps) (raw : List ℚ) (sr : ℤ)
    (method : String) (s c rate quality : List ℚ)
    (pframe dframe phframe : EFrame) (rpk : List ℕ)
    (dinfo : List (String × List ℕ))
    (hs : s = D.signal_sanitize raw)
    (hc : c = D.ecg_clean s sr method)
    (hpk : D.ecg_peaks c sr method = (pframe, rpk))
    (hrt : rate = D.signal_rate rpk sr c.length)
    (hq : quality = D.ecg_quality c rpk sr)
    (hdl : D.ecg_delineate c rpk sr = (dframe, dinfo))
    (hph : phframe = D.ecg_phase c rpk dinfo)
    (lc : c.length = s.length) (lr : rate.length = c.length)
    (lq : quality.length = s.length)
    (lp : ∀ col ∈ pframe.cols, col.2.length ≤ s.length)
    (ld : ∀ col ∈ dframe.cols, col.2.length ≤ s.length)
    (lph2 : ∀ col ∈ phframe.cols, col.2.length ≤ s.length) :
    ∃ tbl, ecg_process D raw sr method = .ok (tbl, ⟨rpk, sr⟩) ∧
      tbl.cols =
        ([("ECG_Raw", s.map some), ("ECG_Clean", c.map some),
          ("ECG_Rate", rate.map some), ("ECG_Quality", quality.map some)]
          : List (String × List (Option ℚ))).map
            (fun c0 => (c0.1, c0.2 ++ List.replicate (s.length - c0.2.length) none))
        ++ pframe.cols.map
            (fun c0 => (c0.1, c0.2 ++ List.replicate (s.length - c0.2.length) none))
        ++ dframe.cols.map
            (fun c0 => (c0.1, c0.2 ++ List.replicate (s.length - c0.2.length) none))
        ++ phframe.cols.map
            (fun c0 => (c0.1, c0.2 ++ List.replicate (s.length - c0.2.length) none)) ∧
      ∀ col ∈ tbl.cols, col.2.length = s.length := by
  refine ⟨_, ecg_process_concat D raw sr method s c rate quality pframe
    dframe phframe rpk dinfo hs hc hpk hrt hq hdl hph lc lr lq lp ld lph2,
    rfl, ?_⟩
  intro col hcol
  simp only [List.mem_append, List.mem_map] at hcol
  rcases hcol with ((⟨c0, hc0, rfl⟩ | ⟨c0, hc0, rfl⟩) | ⟨c0, hc0, rfl⟩) |
    ⟨c0, hc0, rfl⟩
  · simp only [List.mem_cons, List.not_mem_nil, or_false] at hc0
    rcases hc0 with rfl | rfl | rfl | rfl <;>
      · simp only [padTo, List.length_append, List.length_replicate,
          List.length_map, lc, lr, lq]
        omega
  · have := lp c0 hc0
    simp only [padTo, List.length_append, List.length_replicate]
    omega
  · have := ld c0 hc0
    simp only [padTo, List.length_append, List.length_replicate]
    omega
  · have := lph2 c0 hc0
    simp only [padTo, List.length_append, List.length_replicate]
    omega

/-- Witness for the amended C2: the misaligned collaborators on input
`[1, 2, 3]` (peak mask of length 2) satisfy the hypotheses, the call
succeeds, and the short column is padded with `none` to length 3. -/
theorem C2_amended_silent_padding_witness :
    ((([1, 2, 3] : List ℚ) = misalignedDeps.signal_sanitize [1, 2, 3])
      ∧ (([1, 2, 3] : List ℚ) = misalignedDeps.ecg_clean [1, 2, 3] 1000 "neurokit")
      ∧ (misalignedDeps.ecg_peaks [1, 2, 3] 1000 "neurokit"
          = (⟨[("ECG_R_Peaks", [some 0, some 0])]⟩, [1]))
      ∧ (List.replicate 3 (70 : ℚ)
          = misalignedDeps.signal_rate [1] 1000 ([1, 2, 3] : List ℚ).length)
      ∧ (List.replicate 3 (1 : ℚ) = misalignedDeps.ecg_quality [1, 2, 3] [1] 1000)
      ∧ (misalignedDeps.ecg_delineate [1, 2, 3] [1] 1000
          = (⟨[("ECG_P_Peaks", List.replicate 3 (some 0))]⟩,
             [("ECG_P_Peaks", [1])]))
      ∧ ((⟨[("ECG_Phase_Atrial", List.replicate 3 (some 0))]⟩ : EFrame)
          = misalignedDeps.ecg_phase [1, 2, 3] [1] [("ECG_P_Peaks", [1])])
      ∧ (∀ col ∈ (⟨[("ECG_R_Peaks", [some 0, some 0])]⟩ : EFrame).cols,
            col.2.length ≤ ([1, 2, 3] : List ℚ).length))
    ∧ ∃ tbl,
        ecg_process misalignedDeps [1, 2, 3] 1000 "neurokit"
          = .ok (tbl, ⟨[1], 1000⟩) ∧
        tbl.cols =
          ([("ECG_Raw", ([1, 2, 3] : List ℚ).map some),
            ("ECG_Clean", ([1, 2, 3] : List ℚ).map some),
            ("ECG_Rate", (List.replicate 3 (70 : ℚ)).map some),
            ("ECG_Quality", (List.replicate 3 (1 : ℚ)).map some)]
            : List (String × List (Option ℚ))).map
              (fun c0 => (c0.1,
                c0.2 ++ List.replicate (([1, 2, 3] : List ℚ).length - c0.2.length) none))
          ++ ([("ECG_R_Peaks", [some 0, some 0])]
              : List (String × List (Option ℚ))).map
              (fun c0 => (c0.1,
                c0.2 ++ List.replicate (([1, 2, 3] : List ℚ).length - c0.2.length) none))
          ++ ([("ECG_P_Peaks", List.replicate 3 (some 0))]
              : List (String × List (Option ℚ))).map
              (fun c0 => (c0.1,
                c0.2 ++ List.replicate (([1, 2, 3] : List ℚ).length - c0.2.length) none))
          ++ ([("ECG_Phase_Atrial", List.replicate 3 (some 0))]
              : List (String × List (Option ℚ))).map
              (fun c0 => (c0.1,
                c0.2 ++ List.replicate (([1, 2, 3] : List ℚ).length - c0.2.length) none)) ∧
        ∀ col ∈ tbl.cols, col.2.length = ([1, 2, 3] : List ℚ).length := by
  refine ⟨by decide, ?_⟩
  exact C2_amended_silent_padding misalignedDeps [1, 2, 3] 1000 "neurokit"
    [1, 2, 3] [1, 2, 3] (List.replicate 3 70) (List.replicate 3 1)
    ⟨[("ECG_R_Peaks", [some 0, some 0])]⟩
    ⟨[("ECG_P_Peaks", List.replicate 3 (some 0))]⟩
    ⟨[("ECG_Phase_Atrial", List.replicate 3 (some 0))]⟩
    [1] [("ECG_P_Peaks", [1])] (by decide) (by decide) (by decide) (by decide)
    (by decide) (by decide) (by decide) (by decide) (by decide) (by decide)
    (by decide) (by decide) (by decide)

/-! ## Claim C4 -/

/-- Counterexample to claim C4 as stated: the primary stage and the
delineator both emit a column named `"ECG_Raw"` (with different values);
`pd.concat(axis=1)` keeps *both* columns, so the final table contains two
columns of that name and the values of the earlier stage are **not** discarded —
there is no last-write-wins deduplication. -/
theorem C4_counterexample :
    ecg_process collidingDeps [1, 2, 3] 1000 "neurokit"
      = .ok (tblC4, ⟨[1], 1000⟩)
    ∧ (tblC4.cols.filter (fun col => col.1 == "ECG_Raw")).length = 2
    ∧ tblC4.cols.filter (fun col => col.1 == "ECG_Raw")
        = [("ECG_Raw", [some 1, some 2, some 3]),
           ("ECG_Raw", [some 5, some 5, some 5])] := by decide

/-- Amended claim C4: in the column-wise merge of the orchestrator,
duplicate column names are kept, not deduplicated: the column-label
sequence of the output is the concatenation, in stage order, of the primary
labels and the labels of each stage, so a name emitted by two stages occurs
twice (its occurrence count is the sum of the per-stage occurrence counts)
and the values of neither stage are discarded. -/
theorem C4_amended_duplicates_kept (D : EcgDeps) (raw : List ℚ) (sr : ℤ)
    (method : String) (s c rate quality : List ℚ)
    (pframe dframe phframe : EFrame) (rpk : List ℕ)
    (dinfo : List (String × List ℕ))
    (hs : s = D.signal_sanitize raw)
    (hc : c = D.ecg_clean s sr method)
    (hpk : D.ecg_peaks c sr method = (pframe, rpk))
    (hrt : rate = D.signal_rate rpk sr c.length)
    (hq : quality = D.ecg_quality c rpk sr)
    (hdl : D.ecg_delineate c rpk sr = (dframe, dinfo))
    (hph : phframe = D.ecg_phase c rpk dinfo)
    (lc : c.length = s.length) (lr : rate.length = c.length)
    (lq : quality.length = s.length)
    (lp : ∀ col ∈ pframe.cols, col.2.length ≤ s.length)
    (ld : ∀ col ∈ dframe.cols, col.2.length ≤ s.length)
    (lph2 : ∀ col ∈ phframe.cols, col.2.length ≤ s.length) :
    ∃ tbl, ecg_process D raw sr method = .ok (tbl, ⟨rpk, sr⟩) ∧
      tbl.cols.map (fun col => col.1) =
        ["ECG_Raw", "ECG_Clean", "ECG_Rate", "ECG_Quality"]
        ++ pframe.cols.map (fun col => col.1)
        ++ dframe.cols.map (fun col => col.1)
        ++ phframe.cols.map (fun col => col.1) ∧
      ∀ nm : String, (tbl.cols.map (fun col => col.1)).count nm =
        (["ECG_Raw", "ECG_Clean", "ECG_Rate", "ECG_Quality"]
          : List String).count nm
        + (pframe.cols.map (fun col => col.1)).count nm
        + (dframe.cols.map (fun col => col.1)).count nm
        + (phframe.cols.map (fun col => col.1)).count nm := by
  refine ⟨_, ecg_process_concat D raw sr method s c rate quality pframe
    dframe phframe rpk dinfo hs hc hpk hrt hq hdl hph lc lr lq lp ld lph2,
    ?_, ?_⟩
  · simp only [List.map_append, map_fst_padded, List.map_cons, List.map_nil]
  · intro nm
    simp only [List.map_append, map_fst_padded, List.map_cons, List.map_nil,
      List.count_append]

/-- Witness for the amended C4: with the colliding collaborators on
`[1, 2, 3]`, the label sequence of the output is the concatenation of all stage
labels, and the label `"ECG_Raw"` (emitted by the primary stage and by the
delineator) occurs `1 + 0 + 1 + 0 = 2` times. -/
theorem C4_amended_duplicates_kept_witness :
    ((([1, 2, 3] : List ℚ) = collidingDeps.signal_sanitize [1, 2, 3])
      ∧ (([1, 2, 3] : List ℚ) = collidingDeps.ecg_clean [1, 2, 3] 1000 "neurokit")
      ∧ (collidingDeps.ecg_peaks [1, 2, 3] 1000 "neurokit"
          = (⟨[("ECG_R_Peaks", [some 0, some 0, some 0])]⟩, [1]))
      ∧ (List.replicate 3 (70 : ℚ)
          = collidingDeps.signal_rate [1] 1000 ([1, 2, 3] : List ℚ).length)
      ∧ (List.replicate 3 (1 : ℚ) = collidingDeps.ecg_quality [1, 2, 3] [1] 1000)
      ∧ (collidingDeps.ecg_delineate [1, 2, 3] [1] 1000
          = (⟨[("ECG_Raw", List.replicate 3 (some 5))]⟩, [("ECG_P_Peaks", [1])]))
      ∧ ((⟨[("ECG_Phase_Atrial", List.replicate 3 (some 0))]⟩ : EFrame)
          = collidingDeps.ecg_phase [1, 2, 3] [1] [("ECG_P_Peaks", [1])]))
    ∧ ∃ tbl,
        ecg_process collidingDeps [1, 2, 3] 1000 "neurokit"
          = .ok (tbl, ⟨[1], 1000⟩) ∧
        tbl.cols.map (fun col => col.1) =
          ["ECG_Raw", "ECG_Clean", "ECG_Rate", "ECG_Quality"]
          ++ ((⟨[("ECG_R_Peaks", [some 0, some 0, some 0])]⟩ : EFrame).cols.map
              (fun col => col.1))
          ++ ((⟨[("ECG_Raw", List.replicate 3 (some 5))]⟩ : EFrame).cols.map
              (fun col => col.1))
          ++ ((⟨[("ECG_Phase_Atrial", List.replicate 3 (some 0))]⟩
              : EFrame).cols.map (fun col => col.1)) ∧
        ∀ nm : String, (tbl.cols.map (fun col => col.1)).count nm =
          (["ECG_Raw", "ECG_Clean", "ECG_Rate", "ECG_Quality"]
            : List String).count nm
          + ((⟨[("ECG_R_Peaks", [some 0, some 0, some 0])]⟩ : EFrame).cols.map
              (fun col => col.1)).count nm
          + ((⟨[("ECG_Raw", List.replicate 3 (some 5))]⟩ : EFrame).cols.map
              (fun col => col.1)).count nm
          + ((⟨[("ECG_Phase_Atrial", List.replicate 3 (some 0))]⟩
              : EFrame).cols.map (fun col => col.1)).count nm := by
  refine ⟨by decide, ?_⟩
  exact C4_amended_duplicates_kept collidingDeps [1, 2, 3] 1000 "neurokit"
    [1, 2, 3] [1, 2, 3] (List.replicate 3 70) (List.replicate 3 1)
    ⟨[("ECG_R_Peaks", [some 0, some 0, some 0])]⟩
    ⟨[("ECG_Raw", List.replicate 3 (some 5))]⟩
    ⟨[("ECG_Phase_Atrial", List.replicate 3 (some 0))]⟩
    [1] [("ECG_P_Peaks", [1])] (by decide) (by decide) (by decide) (by decide)
    (by decide) (by decide) (by decide) (by decide) (by decide) (by decide)
    (by decide) (by decide) (by decide)

/-! ## Claim C7 -/

/-- Counterexample to claim C7 as stated: called with the non-positive
sampling rate `0`, `ecg_process` does not fail at all — no
`InvalidInputError` is raised before (or after) any stage runs; every
pipeline stage executes and the call returns the merged table, with the
invalid rate `0` recorded verbatim in the info record. -/
theorem C7_counterexample :
    ecg_process benignDeps [1, 2] 0 "neurokit" =
      .ok (⟨[("ECG_Raw", [some 1, some 2]),
             ("ECG_Clean", [some 1, some 2]),
             ("ECG_Rate", [some 70, some 70]),
             ("ECG_Quality", [some 1, some 1]),
             ("ECG_R_Peaks", [some 0, some 0]),
             ("ECG_P_Peaks", [some 0, some 0]),
             ("ECG_Phase_Atrial", [some 0, some 0])]⟩,
           ⟨[1], 0⟩) := by decide

/-- Amended claim C7: `ecg_process` performs no sampling-rate validation.  A
missing/non-positive sampling rate (`sampling_rate ≤ 0`) is passed unchecked
to every collaborator stage; provided the collaborators honour their length
contracts the call succeeds, all stages run (the peak-stage output `rpk`
is merged into the returned info record) and the non-positive rate is
recorded verbatim as `info.sampling_rate`. -/
theorem C7_amended_no_rate_validation (D : EcgDeps) (raw : List ℚ) (sr : ℤ)
    (method : String) (s c rate quality : List ℚ)
    (pframe dframe phframe : EFrame) (rpk : List ℕ)
    (dinfo : List (String × List ℕ))
    (hneg : sr ≤ 0)
    (hs : s = D.signal_sanitize raw)
    (hc : c = D.ecg_clean s sr method)
    (hpk : D.ecg_peaks c sr method = (pframe, rpk))
    (hrt : rate = D.signal_rate rpk sr c.length)
    (hq : quality = D.ecg_quality c rpk sr)
    (hdl : D.ecg_delineate c rpk sr = (dframe, dinfo))
    (hph : phframe = D.ecg_phase c rpk dinfo)
    (lc : c.length = s.length) (lr : rate.length = c.length)
    (lq : quality.length = s.length)
    (lp : ∀ col ∈ pframe.cols, col.2.length ≤ s.length)
    (ld : ∀ col ∈ dframe.cols, col.2.length ≤ s.length)
    (lph2 : ∀ col ∈ phframe.cols, col.2.length ≤ s.length) :
    ∃ tbl, ecg_process D raw sr method = .ok (tbl, ⟨rpk, sr⟩) ∧
      (⟨rpk, sr⟩ : InfoRecord).sampling_rate = sr := by
  exact ⟨_, ecg_process_concat D raw sr method s c rate quality pframe
    dframe phframe rpk dinfo hs hc hpk hrt hq hdl hph lc lr lq lp ld lph2,
    rfl⟩

/-- Witness for the amended C7: the benign collaborators on `[1, 2]` with
sampling rate `0 ≤ 0` — the call succeeds and `0` lands in the info record. -/
theorem C7_amended_no_rate_validation_witness :
    (((0 : ℤ) ≤ 0)
      ∧ (([1, 2] : List ℚ) = benignDeps.signal_sanitize [1, 2])
      ∧ (([1, 2] : List ℚ) = benignDeps.ecg_clean [1, 2] 0 "neurokit")
      ∧ (benignDeps.ecg_peaks [1, 2] 0 "neurokit"
          = (⟨[("ECG_R_Peaks", [some 0, some 0])]⟩, [1]))
      ∧ (List.replicate 2 (70 : ℚ)
          = benignDeps.signal_rate [1] 0 ([1, 2] : List ℚ).length)
      ∧ (List.replicate 2 (1 : ℚ) = benignDeps.ecg_quality [1, 2] [1] 0)
      ∧ (benignDeps.ecg_delineate [1, 2] [1] 0
          = (⟨[("ECG_P_Peaks", List.replicate 2 (some 0))]⟩,
             [("ECG_P_Peaks", [1])]))
      ∧ ((⟨[("ECG_Phase_Atrial", List.replicate 2 (some 0))]⟩ : EFrame)
          = benignDeps.ecg_phase [1, 2] [1] [("ECG_P_Peaks", [1])]))
    ∧ ∃ tbl, ecg_process benignDeps [1, 2] 0 "neurokit" = .ok (tbl, ⟨[1], 0⟩) ∧
        (⟨[1], 0⟩ : InfoRecord).sampling_rate = 0 := by
  refine ⟨by decide, ?_⟩
  exact C7_amended_no_rate_validation benignDeps [1, 2] 0 "neurokit"
    [1, 2] [1, 2] (List.replicate 2 70) (List.replicate 2 1)
    ⟨[("ECG_R_Peaks", [some 0, some 0])]⟩
    ⟨[("ECG_P_Peaks", List.replicate 2 (some 0))]⟩
    ⟨[("ECG_Phase_Atrial", List.replicate 2 (some 0))]⟩
    [1] [("ECG_P_Peaks", [1])] (by decide) (by decide) (by decide) (by decide)
    (by decide) (by decide) (by decide) (by decide) (by decide) (by decide)
    (by decide) (by decide) (by decide) (by decide)

/-! ## Helper lemmas about Python dicts -/

theorem dictInsert_pos {d : Assoc} {k : String} (v : OVal)
    (h : d.any (fun e => e.1 = k) = true) :
    dictInsert d k v = d.map (fun e => if e.1 = k then (k, v) else e) := by
  simp [dictInsert, h]

theorem dictInsert_neg {d : Assoc} {k : String} (v : OVal)
    (h : d.any (fun e => e.1 = k) = false) :
    dictInsert d k v = d ++ [(k, v)] := by
  simp [dictInsert, h]

theorem find_map_self (t : Assoc) (k : String) (v : OVal)
    (h : t.any (fun e => e.1 = k) = true) :
    (t.map (fun e => if e.1 = k then (k, v) else e)).find?
      (fun e => e.1 = k) = some (k, v) := by
  induction t with
  | nil => simp at h
  | cons a t ih =>
    by_cases ha : a.1 = k
    · simp only [List.map_cons, ha, if_true]
      exact List.find?_cons_of_pos _ (by simp)
    · simp only [List.any_cons, decide_eq_true_eq, ha, false_or] at h
      simp only [List.map_cons, ha, if_false]
      rw [List.find?_cons_of_neg _ (by simp [ha])]
      exact ih h

theorem find_map_ne (t : Assoc) (k k' : String) (v : OVal) (h : k' ≠ k) :
    (t.map (fun e => if e.1 = k' then (k', v) else e)).find?
        (fun e => e.1 = k)
      = t.find? (fun e => e.1 = k) := by
  induction t with
  | nil => rfl
  | cons a t ih =>
    by_cases ha : a.1 = k'
    · have hak : ¬ a.1 = k := by rw [ha]; exact h
      simp only [List.map_cons, ha, if_true]
      rw [List.find?_cons_of_neg _ (by simp [h]),
        List.find?_cons_of_neg _ (by simp [hak])]
      exact ih
    · by_cases hk : a.1 = k
      · simp only [List.map_cons, ha, if_false]
        rw [List.find?_cons_of_pos _ (by simp [hk]),
          List.find?_cons_of_pos _ (by simp [hk])]
      · simp only [List.map_cons, ha, if_false]
        rw [List.find?_cons_of_neg _ (by simp [hk]),
          List.find?_cons_of_neg _ (by simp [hk])]
        exact ih

theorem dictLookup_dictInsert_self (d : Assoc) (k : String) (v : OVal) :
    dictLookup (dictInsert d k v) k = some v := by
  cases hany : d.any (fun e => e.1 = k) with
  | true =>
    rw [dictInsert_pos v hany]
    simp [dictLookup, find_map_self d k v hany]
  | false =>
    rw [dictInsert_neg v hany]
    simp only [dictLookup, List.find?_append]
    have hnone : d.find? (fun e => e.1 = k) = none := by
      rw [List.find?_eq_none]
      intro e he
      have := List.any_eq_false.mp hany e he
      simpa using this
    simp [hnone, List.find?_cons_of_pos]

theorem dictLookup_dictInsert_ne (d : Assoc) (k k' : String) (v : OVal)
    (h : k' ≠ k) : dictLookup (dictInsert d k' v) k = dictLookup d k := by
  cases hany : d.any (fun e => e.1 = k') with
  | true =>
    rw [dictInsert_pos v hany]
    simp [dictLookup, find_map_ne d k k' v h]
  | false =>
    rw [dictInsert_neg v hany]
    simp only [dictLookup, List.find?_append]
    cases hf : d.find? (fun e => e.1 = k) with
    | some a => simp [hf]
    | none => simp [hf, List.find?_cons_of_neg, h]

theorem mem_keys_dictInsert_self (d : Assoc) (k : String) (v : OVal) :
    k ∈ (dictInsert d k v).map Prod.fst := by
  cases hany : d.any (fun e => e.1 = k) with
  | true =>
    rw [dictInsert_pos v hany]
    obtain ⟨a, ha, hak⟩ := List.any_eq_true.mp hany
    simp only [decide_eq_true_eq] at hak
    refine List.mem_map.mpr ⟨(k, v), List.mem_map.mpr ⟨a, ha, ?_⟩, rfl⟩
    simp [hak]
  | false =>
    rw [dictInsert_neg v hany]
    simp

theorem entry_dictInsert (d : Assoc) (k : String) (v : OVal) :
    ∀ e ∈ dictInsert d k v, e.1 = k → e.2 = v := by
  intro e he hek
  cases hany : d.any (fun e => e.1 = k) with
  | true =>
    rw [dictInsert_pos v hany] at he
    obtain ⟨a, _, rfl⟩ := List.mem_map.mp he
    by_cases ha : a.1 = k
    · simp [ha]
    · exfalso
      simp only [ha, if_false] at hek
  | false =>
    rw [dictInsert_neg v hany] at he
    rcases List.mem_append.mp he with he | he
    · have := List.any_eq_false.mp hany e he
      simp only [decide_eq_true_eq] at this
      exact absurd hek this
    · rcases List.mem_singleton.mp he with rfl
      rfl

theorem keys_dictInsert_sub (d : Assoc) (k' : String) (v : OVal) (k : String)
    (h : k ∈ (dictInsert d k' v).map Prod.fst) :
    k ∈ d.map Prod.fst ∨ k = k' := by
  cases hany : d.any (fun e => e.1 = k') with
  | true =>
    rw [dictInsert_pos v hany] at h
    obtain ⟨e, he, rfl⟩ := List.mem_map.mp h
    obtain ⟨a, ha, rfl⟩ := List.mem_map.mp he
    by_cases haa : a.1 = k'
    · simp [haa]
    · simp only [haa, if_false]
      exact Or.inl (List.mem_map.mpr ⟨a, ha, rfl⟩)
  | false =>
    rw [dictInsert_neg v hany] at h
    simp only [List.map_append, List.mem_append] at h
    rcases h with h | h
    · exact Or.inl h
    · simp only [List.map_cons, List.map_nil, List.mem_singleton] at h
      exact Or.inr h

theorem dictUpdate_cons (d : Assoc) (e : String × OVal) (es : Assoc) :
    dictUpdate d (e :: es) = dictUpdate (dictInsert d e.1 e.2) es := rfl

theorem dictLookup_dictUpdate_not_mem (d src : Assoc) (k : String)
    (h : k ∉ src.map Prod.fst) :
    dictLookup (dictUpdate d src) k = dictLookup d k := by
  induction src generalizing d with
  | nil => rfl
  | cons e es ih =>
    simp only [List.map_cons, List.mem_cons, not_or] at h
    rw [dictUpdate_cons, ih _ h.2,
      dictLookup_dictInsert_ne _ _ _ _ (fun he => h.1 he.symm)]

theorem keys_dictUpdate_not_mem (d src : Assoc) (k : String)
    (hd : k ∉ d.map Prod.fst) (hs : k ∉ src.map Prod.fst) :
    k ∉ (dictUpdate d src).map Prod.fst := by
  induction src generalizing d with
  | nil => exact hd
  | cons e es ih =>
    simp only [List.map_cons, List.mem_cons, not_or] at hs
    rw [dictUpdate_cons]
    refine ih _ (fun hmem => ?_) hs.2
    rcases keys_dictInsert_sub d e.1 e.2 k hmem with hmem2 | rfl
    · exact hd hmem2
    · exact hs.1 rfl

theorem dictLookup_dictUpdate_of_entries (d src : Assoc) (k : String)
    (v : OVal) (hall : ∀ e ∈ src, e.1 = k → e.2 = v)
    (hmem : k ∈ src.map Prod.fst) :
    dictLookup (dictUpdate d src) k = some v := by
  induction src generalizing d with
  | nil => simp at hmem
  | cons e es ih =>
    by_cases hk : k ∈ es.map Prod.fst
    · rw [dictUpdate_cons]
      exact ih _ (fun a ha => hall a (List.mem_cons_of_mem e ha)) hk
    · have he : e.1 = k := by
        simp only [List.map_cons, List.mem_cons] at hmem
        rcases hmem with h | h
        · exact h.symm
        · exact absurd h hk
      have hev : e.2 = v := hall e (List.mem_cons_self e es) he
      rw [dictUpdate_cons, dictLookup_dictUpdate_not_mem _ _ _ hk, he, hev,
        dictLookup_dictInsert_self]

theorem hrvFold_eq_dictUpdate (out : Assoc) (results : List (String × List ℚ)) :
    results.foldl (fun o r => dictInsert o r.1 (.arr r.2)) out
      = dictUpdate out (results.map (fun r => (r.1, OVal.arr r.2))) := by
  induction results generalizing out with
  | nil => rfl
  | cons r rs ih => simp only [List.foldl_cons, List.map_cons,
      dictUpdate_cons, ih]

/-! ## Helper lemmas about the dense-mask → sparse-index conversion -/

theorem npWhereAux_length (xs : List PVal) :
    ∀ i, (npWhereAux i xs).length = xs.countP (fun v => truthy v) := by
  induction xs with
  | nil => intro i; rfl
  | cons x t ih =>
    intro i
    by_cases hx : truthy x
    · simp [npWhereAux, hx, List.countP_cons, ih]
    · simp [npWhereAux, hx, List.countP_cons, ih]

theorem npWhereAux_lb (xs : List PVal) :
    ∀ i j, j ∈ npWhereAux i xs → i ≤ j := by
  induction xs with
  | nil => intro i j h; simp [npWhereAux] at h
  | cons x t ih =>
    intro i j h
    by_cases hx : truthy x
    · simp only [npWhereAux, hx, if_true, List.mem_cons] at h
      rcases h with rfl | h
      · exact le_refl j
      · exact le_trans (Nat.le_succ i) (ih _ _ h)
    · simp only [npWhereAux, hx, if_false] at h
      exact le_trans (Nat.le_succ i) (ih _ _ h)

theorem npWhereAux_pairwise (xs : List PVal) :
    ∀ i, (npWhereAux i xs).Pairwise (· < ·) := by
  induction xs with
  | nil => intro i; simp [npWhereAux]
  | cons x t ih =>
    intro i
    by_cases hx : truthy x
    · simp only [npWhereAux, hx, if_true]
      refine List.Pairwise.cons (fun j hj => ?_) (ih (i + 1))
      exact lt_of_lt_of_le (Nat.lt_succ_self i) (npWhereAux_lb t (i + 1) j hj)
    · simp only [npWhereAux, hx, if_false]
      exact ih (i + 1)

theorem npWhereAux_mem (xs : List PVal) :
    ∀ i j, j ∈ npWhereAux i xs ↔
      i ≤ j ∧ ∃ v, xs.get? (j - i) = some v ∧ truthy v = true := by
  induction xs with
  | nil => intro i j; simp [npWhereAux]
  | cons x t ih =>
    intro i j
    by_cases hx : truthy x
    · simp only [npWhereAux, hx, if_true, List.mem_cons]
      constructor
      · rintro (rfl | h)
        · exact ⟨le_refl j, x, by simp, hx⟩
        · obtain ⟨hij, v, hv, htv⟩ := (ih (i + 1) j).mp h
          refine ⟨by omega, v, ?_, htv⟩
          obtain ⟨m, hm⟩ : ∃ m, j - i = m + 1 := ⟨j - i - 1, by omega⟩
          rw [hm, List.get?_cons_succ]
          have hmj : m = j - (i + 1) := by omega
          rw [hmj]; exact hv
      · rintro ⟨hij, v, hv, htv⟩
        rcases Nat.eq_or_lt_of_le hij with rfl | hlt
        · left; rfl
        · right
          refine (ih (i + 1) j).mpr ⟨by omega, v, ?_, htv⟩
          obtain ⟨m, hm⟩ : ∃ m, j - i = m + 1 := ⟨j - i - 1, by omega⟩
          rw [hm, List.get?_cons_succ] at hv
          have hmj : j - (i + 1) = m := by omega
          rw [hmj]; exact hv
    · simp only [npWhereAux, hx, if_false]
      constructor
      · intro h
        obtain ⟨hij, v, hv, htv⟩ := (ih (i + 1) j).mp h
        refine ⟨by omega, v, ?_, htv⟩
        obtain ⟨m, hm⟩ : ∃ m, j - i = m + 1 := ⟨j - i - 1, by omega⟩
        rw [hm, List.get?_cons_succ]
        have hmj : m = j - (i + 1) := by omega
        rw [hmj]; exact hv
      · rintro ⟨hij, v, hv, htv⟩
        rcases Nat.eq_or_lt_of_le hij with rfl | hlt
        · exfalso
          rw [Nat.sub_self, List.get?_cons_zero] at hv
          injection hv with hxv
          rw [← hxv] at htv
          exact hx htv
        · refine (ih (i + 1) j).mpr ⟨by omega, v, ?_, htv⟩
          obtain ⟨m, hm⟩ : ∃ m, j - i = m + 1 := ⟨j - i - 1, by omega⟩
          rw [hm, List.get?_cons_succ] at hv
          have hmj : j - (i + 1) = m := by omega
          rw [hmj]; exact hv

theorem countP_truthy_binary (mask : List PVal)
    (hb : ∀ v ∈ mask, v = PVal.num 0 ∨ v = PVal.num 1) :
    mask.countP (fun v => truthy v) = mask.count (PVal.num 1) := by
  induction mask with
  | nil => rfl
  | cons x t ih =>
    have hx := hb x (List.mem_cons_self x t)
    have ht := ih (fun v hv => hb v (List.mem_cons_of_mem x hv))
    have h0 : truthy (PVal.num 0) = false := by decide
    have h1 : truthy (PVal.num 1) = true := by decide
    rcases hx with rfl | rfl
    · rw [List.countP_cons, List.count_cons, ht, h0]
      simp
    · rw [List.countP_cons, List.count_cons, ht, h1]
      simp

/-! ## Evaluation lemmas for the aggregator helpers -/

theorem formatinput_err0 (t : PFrame) (output : Option Assoc) (st : ModState)
    (h : (t.columns.filter (fun i => strContains i "PPG_Rate")).length = 0) :
    ppg_intervalrelated_formatinput t output st
      = .error (.valueError ppgRateMsg) := by
  simp only [ppg_intervalrelated_formatinput, if_pos h]

theorem formatinput_none_eq (t : PFrame) (st : ModState)
    (rateVals : List PVal) (qs : List ℚ)
    (hne0 : ¬ (t.columns.filter (fun i => strContains i "PPG_Rate")).length = 0)
    (h2 : t.getCol "PPG_Rate" = .ok rateVals)
    (h3 : rateVals.mapM asNum = some qs) :
    ppg_intervalrelated_formatinput t none st =
      .ok (dictInsert st.fmtDefault "PPG_Rate_Mean"
            (.num (qs.sum / (qs.length : ℚ))),
           { st with fmtDefault :=
              (dictInsert st.fmtDefault "PPG_Rate_Mean"
                (.num (qs.sum / (qs.length : ℚ)))) }) := by
  simp only [ppg_intervalrelated_formatinput, Option.getD_none, if_neg hne0,
    h2, npMean, h3, Option.isNone_none, if_true]

theorem formatinput_some_eq (t : PFrame) (o : Assoc) (st : ModState)
    (rateVals : List PVal) (qs : List ℚ)
    (hne0 : ¬ (t.columns.filter (fun i => strContains i "PPG_Rate")).length = 0)
    (h2 : t.getCol "PPG_Rate" = .ok rateVals)
    (h3 : rateVals.mapM asNum = some qs) :
    ppg_intervalrelated_formatinput t (some o) st =
      .ok (dictInsert o "PPG_Rate_Mean" (.num (qs.sum / (qs.length : ℚ))), st) := by
  simp only [ppg_intervalrelated_formatinput, Option.getD_some, if_neg hne0,
    h2, npMean, h3, Option.isNone_some, Bool.false_eq_true, if_false]

theorem hrv_err0 (E : HrvEngine) (t : PFrame) (sr : ℤ) (output : Option Assoc)
    (st : ModState)
    (h : (t.columns.filter (fun i => strContains i "PPG_Peaks")).length = 0) :
    ppg_intervalrelated_hrv E t sr output st
      = .error (.valueError ppgPeaksMsg) := by
  simp only [ppg_intervalrelated_hrv, if_pos h]

theorem hrv_none_eq (E : HrvEngine) (t : PFrame) (sr : ℤ) (st : ModState)
    (mask : List PVal)
    (hne0 : ¬ (t.columns.filter (fun i => strContains i "PPG_Peaks")).length = 0)
    (h5 : t.getCol "PPG_Peaks" = .ok mask) :
    ppg_intervalrelated_hrv E t sr none st =
      .ok (dictUpdate st.hrvDefault
            ((E (npWhere mask) sr).map (fun r => (r.1, OVal.arr r.2))),
           { st with hrvDefault :=
              (dictUpdate st.hrvDefault
                ((E (npWhere mask) sr).map (fun r => (r.1, OVal.arr r.2)))) }) := by
  simp only [ppg_intervalrelated_hrv, Option.getD_none, if_neg hne0, h5,
    hrvFold_eq_dictUpdate, Option.isNone_none, if_true]

theorem hrv_some_eq (E : HrvEngine) (t : PFrame) (sr : ℤ) (o : Assoc)
    (st : ModState) (mask : List PVal)
    (hne0 : ¬ (t.columns.filter (fun i => strContains i "PPG_Peaks")).length = 0)
    (h5 : t.getCol "PPG_Peaks" = .ok mask) :
    ppg_intervalrelated_hrv E t sr (some o) st =
      .ok (dictUpdate o ((E (npWhere mask) sr).map (fun r => (r.1, OVal.arr r.2))),
           st) := by
  simp only [ppg_intervalrelated_hrv, Option.getD_some, if_neg hne0, h5,
    hrvFold_eq_dictUpdate, Option.isNone_some, Bool.false_eq_true, if_false]

theorem map_fst_arr_pairs (l : List (String × List ℚ)) :
    (l.map (fun r => (r.1, OVal.arr r.2))).map Prod.fst = l.map Prod.fst := by
  induction l with
  | nil => rfl
  | cons a t ih => simp [ih]

/-! ## Claim C5 -/

/-- Claim C5: in single-table mode, `ppg_intervalrelated` requires exactly
one column whose name matches the rate pattern `"PPG_Rate"` (substring
containment): when zero columns match, or more than one matches, it raises
the schema `ValueError` whose message names the required `PPG_Rate` pattern,
and no summary row is produced. -/
theorem C5_rate_schema (E : HrvEngine) (t : PFrame) (sr : ℤ) (st : ModState)
    (h : (t.columns.filter (fun col => strContains col "PPG_Rate")).length ≠ 1) :
    ppg_intervalrelated E (.df t) sr st = .error (.valueError ppgRateMsg)
    ∧ strContains ppgRateMsg "PPG_Rate" = true := by
  refine ⟨?_, by decide⟩
  simp only [ppg_intervalrelated, if_neg h]

/-- Witness for C5: a frame with no rate-matching column is rejected with
the schema error naming `PPG_Rate`. -/
theorem C5_rate_schema_witness :
    ((dfNoRate.columns.filter (fun col => strContains col "PPG_Rate")).length ≠ 1)
    ∧ (ppg_intervalrelated emptyHrv (.df dfNoRate) 1000 initState
        = .error (.valueError ppgRateMsg)
      ∧ strContains ppgRateMsg "PPG_Rate" = true) :=
  ⟨by decide, C5_rate_schema emptyHrv dfNoRate 1000 initState (by decide)⟩

/-! ## Claim C10 -/

/-- Claim C10: the schema checks of the aggregator match column names by
substring containment while the data access uses the exact names
`"PPG_Rate"` and `"PPG_Peaks"`.  For `dfRateSmoothed` (whose only
rate-matching column is `"PPG_Rate_Smoothed"`) every schema check passes
(the filter counts are 1) yet the call fails with `KeyError "PPG_Rate"`
rather than the schema `ValueError`; likewise `dfPeaksFixed` (whose only
events-matching column is `"PPG_Peaks_Fixed"`) fails with
`KeyError "PPG_Peaks"`. -/
theorem C10_substring_check_exact_lookup :
    ppg_intervalrelated emptyHrv (.df dfRateSmoothed) 1000 initState
      = .error (.keyError "PPG_Rate")
    ∧ ppg_intervalrelated emptyHrv (.df dfPeaksFixed) 1000 initState
      = .error (.keyError "PPG_Peaks")
    ∧ (dfRateSmoothed.columns.filter
        (fun col => strContains col "PPG_Rate")).length = 1
    ∧ (dfPeaksFixed.columns.filter
        (fun col => strContains col "PPG_Peaks")).length = 1 := by decide

/-! ## Claim C8 -/

/-- Claim C8: in single-table mode the summary feature `PPG_Rate_Mean`
equals the arithmetic mean of the values of the rate column
(`np.mean(data["PPG_Rate"].values)`).  The hypotheses say: exactly one
rate-matching column, the exact column `"PPG_Rate"` holds numeric values
`qs`, an events-matching column exists with exact column `"PPG_Peaks"`, and
neither the metric names of the engine nor the stale default accumulator carry
the key `"PPG_Rate_Mean"` (the engine postdates the mean and would
overwrite it). -/
theorem C8_rate_mean (E : HrvEngine) (t : PFrame) (sr : ℤ) (st : ModState)
    (rateVals mask : List PVal) (qs : List ℚ)
    (h1 : (t.columns.filter (fun col => strContains col "PPG_Rate")).length = 1)
    (h2 : t.getCol "PPG_Rate" = .ok rateVals)
    (h3 : rateVals.mapM asNum = some qs)
    (h4 : ¬ (t.columns.filter (fun col => strContains col "PPG_Peaks")).length = 0)
    (h5 : t.getCol "PPG_Peaks" = .ok mask)
    (h6 : "PPG_Rate_Mean" ∉ (E (npWhere mask) sr).map Prod.fst)
    (h7 : "PPG_Rate_Mean" ∉ st.hrvDefault.map Prod.fst) :
    ∃ row st2, ppg_intervalrelated E (.df t) sr st = .ok (.single row, st2)
      ∧ dictLookup row "PPG_Rate_Mean"
          = some (.num (qs.sum / (qs.length : ℚ))) := by
  have hne0 : ¬ (t.columns.filter
      (fun col => strContains col "PPG_Rate")).length = 0 := by
    rw [h1]; omega
  refine ⟨dictUpdate (dictUpdate []
      (dictInsert st.fmtDefault "PPG_Rate_Mean"
        (.num (qs.sum / (qs.length : ℚ)))))
      (dictUpdate st.hrvDefault
        ((E (npWhere mask) sr).map (fun r => (r.1, OVal.arr r.2)))),
    ⟨dictInsert st.fmtDefault "PPG_Rate_Mean" (.num (qs.sum / (qs.length : ℚ))),
     dictUpdate st.hrvDefault
       ((E (npWhere mask) sr).map (fun r => (r.1, OVal.arr r.2)))⟩,
    ?_, ?_⟩
  · simp only [ppg_intervalrelated, if_pos h1,
      formatinput_none_eq t st rateVals qs hne0 h2 h3,
      hrv_none_eq E t sr _ mask h4 h5]
  · have hkeys : "PPG_Rate_Mean" ∉
        ((E (npWhere mask) sr).map (fun r => (r.1, OVal.arr r.2))).map
          Prod.fst := by
      rw [map_fst_arr_pairs]; exact h6
    rw [dictLookup_dictUpdate_not_mem _ _ _
      (keys_dictUpdate_not_mem _ _ _ h7 hkeys)]
    exact dictLookup_dictUpdate_of_entries _ _ _ _
      (entry_dictInsert st.fmtDefault "PPG_Rate_Mean" _)
      (mem_keys_dictInsert_self st.fmtDefault "PPG_Rate_Mean" _)

/-- Witness for C8: the mean-rate example of the spec — rate column
`[60, 60, 60, 80, 80]` yields `PPG_Rate_Mean = 68`. -/
theorem C8_rate_mean_witness :
    (((dfMean.columns.filter (fun col => strContains col "PPG_Rate")).length = 1)
      ∧ dfMean.getCol "PPG_Rate"
          = .ok [.num 60, .num 60, .num 60, .num 80, .num 80]
      ∧ ([PVal.num 60, .num 60, .num 60, .num 80, .num 80].mapM asNum
          = some [60, 60, 60, 80, 80])
      ∧ ¬ (dfMean.columns.filter
            (fun col => strContains col "PPG_Peaks")).length = 0
      ∧ dfMean.getCol "PPG_Peaks"
          = .ok [.num 1, .num 0, .num 0, .num 1, .num 0]
      ∧ "PPG_Rate_Mean" ∉
          (oneHrv (npWhere [PVal.num 1, .num 0, .num 0, .num 1, .num 0])
            1000).map Prod.fst
      ∧ "PPG_Rate_Mean" ∉ initState.hrvDefault.map Prod.fst)
    ∧ ∃ row st2,
        ppg_intervalrelated oneHrv (.df dfMean) 1000 initState
          = .ok (.single row, st2)
        ∧ dictLookup row "PPG_Rate_Mean" = some (.num 68) := by
  refine ⟨by decide, ?_⟩
  obtain ⟨row, st2, hm, hl⟩ := C8_rate_mean oneHrv dfMean 1000 initState
    [.num 60, .num 60, .num 60, .num 80, .num 80]
    [.num 1, .num 0, .num 0, .num 1, .num 0]
    [60, 60, 60, 80, 80] (by decide) (by decide) (by decide) (by decide)
    (by decide) (by decide) (by decide)
  refine ⟨row, st2, hm, ?_⟩
  rw [hl]
  norm_num [List.sum_cons, List.sum_nil, OVal.num.injEq]

/-! ## Claim C9 -/

/-- Claim C9: when the aggregator converts the dense binary events mask
column `"PPG_Peaks"` to sparse form with `np.where(...)[0]` before
delegating to the variability-metric engine, the resulting index sequence is
exactly the set of 1-valued positions of the mask: it has as many elements
as the mask has 1-entries, a position is in it iff the mask holds 1 there,
and it is strictly increasing (hence duplicate-free).  Moreover the engine
is consulted only at that converted index sequence: two engines agreeing
there make `_ppg_intervalrelated_hrv` agree. -/
theorem C9_mask_conversion (data : PFrame) (sr : ℤ) (out : Option Assoc)
    (st : ModState) (mask : List PVal)
    (hm : data.getCol "PPG_Peaks" = .ok mask)
    (hb : ∀ v ∈ mask, v = PVal.num 0 ∨ v = PVal.num 1) :
    (npWhere mask).length = mask.count (PVal.num 1)
    ∧ (∀ i, i ∈ npWhere mask ↔ mask.get? i = some (PVal.num 1))
    ∧ (npWhere mask).Pairwise (· < ·)
    ∧ ∀ E E2 : HrvEngine, E (npWhere mask) sr = E2 (npWhere mask) sr →
        ppg_intervalrelated_hrv E data sr out st
          = ppg_intervalrelated_hrv E2 data sr out st := by
  refine ⟨?_, ?_, ?_, ?_⟩
  · rw [npWhere, npWhereAux_length mask 0, countP_truthy_binary mask hb]
  · intro i
    rw [npWhere, npWhereAux_mem mask 0 i]
    constructor
    · rintro ⟨-, v, hv, htv⟩
      rw [Nat.sub_zero] at hv
      have hvmem : v ∈ mask := List.get?_mem hv
      rcases hb v hvmem with rfl | rfl
      · exact absurd htv (by decide)
      · exact hv
    · intro h
      exact ⟨Nat.zero_le i, PVal.num 1, by rwa [Nat.sub_zero], by decide⟩
  · exact npWhereAux_pairwise mask 0
  · intro E E2 hagree
    by_cases hchk : (data.columns.filter
        (fun i => strContains i "PPG_Peaks")).length = 0
    · rw [hrv_err0 E data sr out st hchk, hrv_err0 E2 data sr out st hchk]
    · simp only [ppg_intervalrelated_hrv, if_neg hchk, hm, hagree]

/-- Witness for C9: the 4-sample mask `[0, 1, 1, 0]` converts to the index
sequence `[1, 2]` with all three consistency properties, and the engine is
consulted only at `[1, 2]`. -/
theorem C9_mask_conversion_witness :
    ((dfC9.getCol "PPG_Peaks" = .ok maskC9)
      ∧ ∀ v ∈ maskC9, v = PVal.num 0 ∨ v = PVal.num 1)
    ∧ ((npWhere maskC9).length = maskC9.count (PVal.num 1)
      ∧ (∀ i, i ∈ npWhere maskC9 ↔ maskC9.get? i = some (PVal.num 1))
      ∧ (npWhere maskC9).Pairwise (· < ·)
      ∧ ∀ E E2 : HrvEngine,
          E (npWhere maskC9) 1000 = E2 (npWhere maskC9) 1000 →
          ppg_intervalrelated_hrv E dfC9 1000 none initState
            = ppg_intervalrelated_hrv E2 dfC9 1000 none initState) :=
  ⟨⟨by decide, by decide⟩,
    C9_mask_conversion dfC9 1000 none initState maskC9 (by decide) (by decide)⟩

/-! ## Claim C6 -/

/-- Counterexample to claim C6 as stated: for the collection
`{"epoch_1" ↦ epochA, "epoch_2" ↦ epochB}` where `epochA` lacks the events
column, the aggregation does abort the whole batch with the schema
`ValueError`, and the message does name the missing pattern `PPG_Peaks` —
but it does **not** identify the offending label: neither the dict key
`"epoch_1"` nor the label value `"A"` occurs in the error message. -/
theorem C6_counterexample :
    ppg_intervalrelated emptyHrv
        (.dict [("epoch_1", epochA), ("epoch_2", epochB)]) 1000 initState
      = .error (.valueError ppgPeaksMsg)
    ∧ strContains ppgPeaksMsg "PPG_Peaks" = true
    ∧ strContains ppgPeaksMsg "epoch_1" = false
    ∧ strContains ppgPeaksMsg "A" = false := by decide

/-- Amended claim C6: in collection mode, a label whose table lacks a
required events column aborts the entire batch with the schema `ValueError`
naming the missing column pattern (`PPG_Peaks`) — but the error does not
identify the offending label: the raised error is one and the same constant
message for every choice of label names and remaining tables. -/
theorem C6_amended_label_not_named (E : HrvEngine) (sr : ℤ) (st : ModState)
    (A B : PFrame) (la lb : String) (lv : PVal)
    (rest rateVals : List PVal) (qs : List ℚ)
    (hlab : A.getCol "Label" = .ok (lv :: rest))
    (hrate_chk : ¬ (A.columns.filter
        (fun i => strContains i "PPG_Rate")).length = 0)
    (hrate : A.getCol "PPG_Rate" = .ok rateVals)
    (hnum : rateVals.mapM asNum = some qs)
    (hpk : (A.columns.filter (fun i => strContains i "PPG_Peaks")).length = 0) :
    ppg_intervalrelated E (.dict [(la, A), (lb, B)]) sr st
      = .error (.valueError ppgPeaksMsg)
    ∧ strContains ppgPeaksMsg "PPG_Peaks" = true := by
  refine ⟨?_, by decide⟩
  simp only [ppg_intervalrelated, ppgDictGo, hlab, List.head?_cons,
    formatinput_some_eq A _ st rateVals qs hrate_chk hrate hnum,
    hrv_err0 E A sr _ st hpk]

/-- Witness for the amended C6: the concrete two-label collection from the
counterexample satisfies the hypotheses, so the whole batch aborts with the
constant pattern-naming message. -/
theorem C6_amended_label_not_named_witness :
    ((epochA.getCol "Label" = .ok [.str "A"])
      ∧ ¬ (epochA.columns.filter
          (fun i => strContains i "PPG_Rate")).length = 0
      ∧ epochA.getCol "PPG_Rate" = .ok [.num 60]
      ∧ ([PVal.num 60].mapM asNum = some [60])
      ∧ (epochA.columns.filter
          (fun i => strContains i "PPG_Peaks")).length = 0)
    ∧ (ppg_intervalrelated emptyHrv
          (.dict [("epoch_1", epochA), ("epoch_2", epochB)]) 1000 initState
        = .error (.valueError ppgPeaksMsg)
      ∧ strContains ppgPeaksMsg "PPG_Peaks" = true) :=
  ⟨by decide, C6_amended_label_not_named emptyHrv 1000 initState epochA epochB
    "epoch_1" "epoch_2" (.str "A") [] [.num 60] [60] (by decide) (by decide)
    (by decide) (by decide) (by decide)⟩

/-! ## Claim C3 -/

theorem formatinput_some_state (t : PFrame) (o : Assoc) (st st2 : ModState) :
    ppg_intervalrelated_formatinput t (some o) st
      = (ppg_intervalrelated_formatinput t (some o) st2).map
          (fun p => (p.1, st)) := by
  by_cases hc : (t.columns.filter (fun i => strContains i "PPG_Rate")).length = 0
  · rw [formatinput_err0 t (some o) st hc, formatinput_err0 t (some o) st2 hc]
    rfl
  · cases hg : t.getCol "PPG_Rate" with
    | error e =>
      simp only [ppg_intervalrelated_formatinput, Option.getD_some]
      rw [if_neg hc, if_neg hc]
      simp [hg, Except.map]
    | ok signal =>
      cases hm2 : npMean signal with
      | error e =>
        simp only [ppg_intervalrelated_formatinput, Option.getD_some]
        rw [if_neg hc, if_neg hc]
        simp [hg, hm2, Except.map]
      | ok mq =>
        simp only [ppg_intervalrelated_formatinput, Option.getD_some]
        rw [if_neg hc, if_neg hc]
        simp [hg, hm2, Except.map]

theorem hrv_some_state (E : HrvEngine) (t : PFrame) (sr : ℤ) (o : Assoc)
    (st st2 : ModState) :
    ppg_intervalrelated_hrv E t sr (some o) st
      = (ppg_intervalrelated_hrv E t sr (some o) st2).map
          (fun p => (p.1, st)) := by
  by_cases hc : (t.columns.filter (fun i => strContains i "PPG_Peaks")).length = 0
  · rw [hrv_err0 E t sr (some o) st hc, hrv_err0 E t sr (some o) st2 hc]
    rfl
  · cases hg : t.getCol "PPG_Peaks" with
    | error e =>
      simp only [ppg_intervalrelated_hrv, Option.getD_some]
      rw [if_neg hc, if_neg hc]
      simp [hg, Except.map]
    | ok mask =>
      simp only [ppg_intervalrelated_hrv, Option.getD_some]
      rw [if_neg hc, if_neg hc]
      simp [hg, Except.map]

theorem ppgDictGo_state (E : HrvEngine) (sr : ℤ) :
    ∀ (m : List (String × PFrame)) (st st2 : ModState),
      ppgDictGo E sr m st = (ppgDictGo E sr m st2).map (fun p => (p.1, st)) := by
  intro m
  induction m with
  | nil => intro st st2; rfl
  | cons e rest ih =>
    intro st st2
    obtain ⟨lab, t⟩ := e
    cases hl : t.getCol "Label" with
    | error err => simp [ppgDictGo, hl, Except.map]
    | ok labcol =>
      cases hh : labcol.head? with
      | none => simp [ppgDictGo, hl, hh, Except.map]
      | some lv =>
        simp only [ppgDictGo, hl, hh]
        rw [formatinput_some_state t (dictInsert [] "Label" (pvalToOVal lv))
          st st2]
        cases hf : ppg_intervalrelated_formatinput t
            (some (dictInsert [] "Label" (pvalToOVal lv))) st2 with
        | error e => simp [hf, Except.map]
        | ok p =>
          obtain ⟨row1, stf⟩ := p
          simp only [hf, Except.map]
          rw [hrv_some_state E t sr row1 st stf]
          cases hv : ppg_intervalrelated_hrv E t sr (some row1) stf with
          | error e => simp [hv, Except.map]
          | ok q =>
            obtain ⟨row2, sth⟩ := q
            simp only [hv, Except.map]
            rw [ih st sth]
            cases hr : ppgDictGo E sr rest sth with
            | error e => simp [hr, Except.map]
            | ok r =>
              obtain ⟨rows, str⟩ := r
              simp [hr, Except.map]

/-- Counterexample to claim C3 as stated: `ppg_intervalrelated` is *not* a
pure function of its arguments.  Its helpers share mutable default
accumulators across calls (`output={}`), so with an engine `shiftHrv` whose
metric column set depends on its input: a first single-table call on `dfA`
leaves `HRV_X` in the default dict; a second call on `dfB` then returns a
row still containing `("HRV_X", [1])` — a feature key originating from the
earlier call on a different input — while a fresh call on `dfB` from the
initial module state returns a row without it.  Same input `dfB`, same
arguments, different outputs depending on call history. -/
theorem C3_counterexample :
    ((match ppg_intervalrelated shiftHrv (.df dfA) 1000 initState with
      | .ok (_, st1) => ppg_intervalrelated shiftHrv (.df dfB) 1000 st1
      | .error e => .error e).toOption.map
        (fun (p : PpgOut × ModState) => match p.1 with
          | .single row => row.map Prod.fst
          | .byLabel _ => []))
      = some ["PPG_Rate_Mean", "HRV_X", "HRV_Y"]
    ∧ ((ppg_intervalrelated shiftHrv (.df dfB) 1000 initState).toOption.map
        (fun (p : PpgOut × ModState) => match p.1 with
          | .single row => row.map Prod.fst
          | .byLabel _ => []))
      = some ["PPG_Rate_Mean", "HRV_Y"] := by
  decide

/-- Amended claim C3: the aggregator is a deterministic function of its
arguments *and* the hidden module state (the two mutable default
accumulators), not of its arguments alone — single-table outputs can carry
feature keys left by earlier calls (see the counterexample).  What survives
of the purity claim: in collection mode the accumulators are passed
explicitly, so the result is independent of the hidden state and a call
leaves that state unchanged — no cross-call or cross-label leakage there. -/
theorem C3_amended_purity (E : HrvEngine) (m : List (String × PFrame))
    (sr : ℤ) (st st2 : ModState) :
    (ppg_intervalrelated E (.dict m) sr st).map Prod.fst
      = (ppg_intervalrelated E (.dict m) sr st2).map Prod.fst
    ∧ (∀ out stOut,
        ppg_intervalrelated E (.dict m) sr st = .ok (out, stOut) →
        stOut = st) := by
  constructor
  · simp only [ppg_intervalrelated]
    rw [ppgDictGo_state E sr m st st2]
    cases h : ppgDictGo E sr m st2 with
    | error e => rfl
    | ok p =>
      obtain ⟨rows, str⟩ := p
      simp [Except.map]
  · intro out stOut h
    simp only [ppg_intervalrelated] at h
    have hself := ppgDictGo_state E sr m st st
    cases hg : ppgDictGo E sr m st with
    | error e =>
      rw [hg] at h
      exact absurd h (by simp)
    | ok p =>
      obtain ⟨rows, str⟩ := p
      rw [hg] at hself h
      simp only [Except.map, Except.ok.injEq, Prod.mk.injEq] at hself
      simp only [Except.ok.injEq, Prod.mk.injEq] at h
      rw [← h.2, hself.2]

/-- Witness for the amended C3: a collection-mode call on the well-formed
epoch `epochB`, run from a polluted module state versus the initial one,
returns identical rows, and returns the polluted state untouched. -/
theorem C3_amended_purity_witness :
    ((ppg_intervalrelated shiftHrv (.dict [("epoch_2", epochB)]) 1000
        ⟨[("PPG_Rate_Mean", .num 60)], [("HRV_X", .arr [1])]⟩).map Prod.fst
      = (ppg_intervalrelated shiftHrv (.dict [("epoch_2", epochB)]) 1000
          initState).map Prod.fst)
    ∧ (∀ out stOut,
        ppg_intervalrelated shiftHrv (.dict [("epoch_2", epochB)]) 1000
            ⟨[("PPG_Rate_Mean", .num 60)], [("HRV_X", .arr [1])]⟩
          = .ok (out, stOut) →
        stOut = ⟨[("PPG_Rate_Mean", .num 60)], [("HRV_X", .arr [1])]⟩) :=
  C3_amended_purity shiftHrv [("epoch_2", epochB)] 1000
    ⟨[("PPG_Rate_Mean", .num 60)], [("HRV_X", .arr [1])]⟩ initState

end NeuroKit
